import Mathlib

/-!
# Sports event tracker: chat and event-listing widget

A shallow embedding of `src/app/static/js/main.js`.  The page state the
script reads and writes (the chat message list, the text input, the requests
in flight, the event list, the body class list and the stored theme flag) is
made explicit, and every handler of the script is a function on that state.

Conventions.

* A JavaScript string is a list of characters (`JSString`).
* Functions of the browser and of third-party libraries that the script calls
  but does not define (`String.prototype.toLowerCase`, `marked.parse`, the
  locale-dependent date formatters, the search of the HTML parser's output for
  an element of class `typing-indicator`) are parameters of the definitions
  that call them; theorems hold for every value of these parameters unless a
  hypothesis says otherwise.
* An asynchronous request is split into the part that runs when the handler is
  called and the part that runs when the request settles.
* `scrollToBottom` only changes the scroll offset of the chat box, which is not
  part of the modelled state.
-/

namespace SportsEventTracker

/-- A JavaScript string, as the list of its characters. -/
abbrev JSString := List Char

/-! ## String primitives -/

/-- The characters `String.prototype.trim` strips: ECMAScript `WhiteSpace`
(TAB, VT, FF, SP, NBSP, ZWNBSP and the Unicode space separators) and
`LineTerminator` (LF, CR, LS, PS). -/
def isWhiteSpace (c : Char) : Bool :=
  c.toNat ∈ [0x09, 0x0A, 0x0B, 0x0C, 0x0D, 0x20, 0xA0, 0x1680, 0x2028, 0x2029,
      0x202F, 0x205F, 0x3000, 0xFEFF]
    || (0x2000 ≤ c.toNat && c.toNat ≤ 0x200A)

/-- The method `String.prototype.trim`: white space is removed from both ends. -/
def trim (s : JSString) : JSString :=
  ((s.dropWhile isWhiteSpace).reverse.dropWhile isWhiteSpace).reverse

/-- The method `String.prototype.includes`: `includes s t` holds when `t`
occurs in `s` as a contiguous run of characters. -/
def includes : JSString → JSString → Bool
  | [], t => t.isEmpty
  | c :: s, t => t.isPrefixOf (c :: s) || includes s t

/-- Lower-casing of the ASCII letters, leaving every other character alone.
On strings of ASCII characters this is what `String.prototype.toLowerCase`
computes; it is used to instantiate the `toLowerCase` parameter on concrete
inputs. -/
def asciiToLowerCase (s : JSString) : JSString :=
  s.map fun c => if 'A' ≤ c ∧ c ≤ 'Z' then Char.ofNat (c.toNat + 32) else c

/-- A JavaScript value, as far as the script distinguishes values: it compares
with `undefined` and with string constants, calls string methods, and
converts to a string inside template literals.  `other` stands for `null`,
numbers, booleans and objects and carries the result of converting the value
to a string. -/
inductive JSValue where
  | undefined
  | str (s : JSString)
  | other (shown : JSString)
  deriving DecidableEq, Repr

/-- Conversion of a value to a string, as done by a template literal and by
`document.createTextNode`. -/
def toStringJS : JSValue → JSString
  | .undefined => "undefined".toList
  | .str s => s
  | .other shown => shown

/-! ## Class lists (`DOMTokenList`) -/

/-- The ASCII white space that may not occur in a class token. -/
def isAsciiWhiteSpace (c : Char) : Bool :=
  c.toNat ∈ [0x09, 0x0A, 0x0C, 0x0D, 0x20]

/-- A token `classList.add` accepts: non-empty and free of ASCII white space.
On any other token `add` throws. -/
def validToken (t : JSString) : Bool :=
  !t.isEmpty && !t.any isAsciiWhiteSpace

/-- The method `classList.contains`. -/
def classListContains (cl : List JSString) (t : JSString) : Bool :=
  cl.contains t

/-- The method `classList.add(t1, t2, ...)`: every token is validated first
(`none` when one is rejected, which throws), then each token not yet present is
appended. -/
def classListAdd (cl : List JSString) (tokens : List JSString) : Option (List JSString) :=
  if tokens.all validToken then
    some (tokens.foldl (fun acc t => if classListContains acc t then acc else acc ++ [t]) cl)
  else none

/-- The method `classList.toggle(t)` for a valid token: the token is removed
when present and appended when absent. -/
def classListToggle (cl : List JSString) (t : JSString) : List JSString :=
  if classListContains cl t then cl.filter (fun u => u ≠ t) else cl ++ [t]

/-! ## Theme switch (lines 32-36 and 46-51) -/

/-- The part of the page the theme code touches: the class list of `body`
and the entry `theme` of `localStorage` (`none` when the key is absent, for
which `getItem` returns `null`). -/
structure ThemeState where
  bodyClassList : List JSString
  theme : Option JSString
  deriving DecidableEq, Repr

/-- Lines 32-36: on load the saved preference is read and `dark-mode` is added
to the body when it is exactly `dark`. -/
def initTheme (s : ThemeState) : ThemeState :=
  let savedTheme := s.theme
  if savedTheme = some "dark".toList then
    match classListAdd s.bodyClassList ["dark-mode".toList] with
    | some cl => { s with bodyClassList := cl }
    | none => s
  else s

/-- Lines 47-51: the click handler of the theme switch. -/
def themeSwitchClick (s : ThemeState) : ThemeState :=
  let cl := classListToggle s.bodyClassList "dark-mode".toList
  let currentTheme := if classListContains cl "dark-mode".toList then "dark".toList else "light".toList
  { bodyClassList := cl, theme := some currentTheme }

/-! ## Searching the rendered cards (lines 72-91) -/

/-- What `searchEvents` reads and writes of an element matched by
`.event-card`: its text content and its `style.display`. -/
structure Card where
  textContent : JSString
  display : JSString
  deriving DecidableEq, Repr

/-- Lines 72-91.  `cards` is the result of
`document.querySelectorAll('.event-card')`; the result is the same list after
the function has run. -/
def searchEvents (toLowerCase : JSString → JSString) (query : JSString)
    (cards : List Card) : List Card :=
  let query := trim (toLowerCase query)
  if query = [] then
    cards.map fun card => { card with display := "block".toList }
  else
    cards.map fun card =>
      let cardText := toLowerCase card.textContent
      if includes cardText query then
        { card with display := "block".toList }
      else
        { card with display := "none".toList }

/-! ## Chat (lines 136-269) -/

/-- A child of the `message-content` element of a chat entry. -/
inductive ContentNode where
  /-- The `message-time` element with its text. -/
  | time (text : JSString)
  /-- A text node (user messages). -/
  | text (data : JSString)
  /-- The `markdown-content` wrapper with the markup assigned to its `innerHTML`. -/
  | markdown (innerHTML : JSString)
  /-- The `typing-dots` element with its number of `dot` spans. -/
  | typingDots (dots : Nat)
  deriving DecidableEq, Repr

/-- A child of `chatMessages`: the class list of the element, the class list
of the icon inside its avatar, and the children of its `message-content`. -/
structure Entry where
  classList : List JSString
  iconClassList : List JSString
  content : List ContentNode
  deriving DecidableEq, Repr

/-- The readings of `new Date()` that `appendMessage` uses. -/
structure Clock where
  hours : Nat
  minutes : Nat
  deriving DecidableEq, Repr

/-- The method `padStart(n, c)` for a one-character filler. -/
def padStart (s : JSString) (n : Nat) (c : Char) : JSString :=
  List.replicate (n - s.length) c ++ s

/-- Line 201: the text of the time stamp. -/
def timeText (now : Clock) : JSString :=
  (Nat.repr now.hours).toList ++ ":".toList ++ padStart (Nat.repr now.minutes).toList 2 '0'

/-- A request issued with `fetch` by `sendMessage` (lines 150-156); `message`
is the value of the field `message` of the JSON body. -/
structure Request where
  url : JSString
  method : JSString
  contentType : JSString
  message : JSString
  deriving DecidableEq, Repr

/-- The chat part of the page: the value of the input box, the children of
`chatMessages` in document order, the chat requests that have not settled yet,
the number of chat requests issued so far, and what the rest of the document
contributes to `document.querySelector('.typing-indicator')`: `matchesBefore`
is the number of successive calls of `removeTypingIndicator` that find their
element before the chat list in document order (static markup or rendered
event cards holding elements of that class).  Elements after the chat list
never change what happens to the list.  The chat list is taken to stay attached
to the document. -/
structure ChatState where
  input : JSString
  messages : List Entry
  pending : List Request
  issued : Nat
  matchesBefore : Nat
  deriving DecidableEq, Repr

/-- Lines 179-224.  The result is the new list of children of `chatMessages`,
or `none` when the function throws; it can only throw before the entry is
attached (in `classList.add` or in `marked.parse`), so the list is then
unchanged.  `markedParse v` is `marked.parse(v)`, `none` when that call throws. -/
def appendMessage (markedParse : JSValue → Option JSString) (now : Clock)
    (message : JSValue) (sender : JSString) (chatMessages : List Entry) :
    Option (List Entry) :=
  match classListAdd [] ["message".toList, sender] with
  | none => none
  | some messageClasses =>
    let iconClasses :=
      ["fas".toList, if sender = "user".toList then "fa-user".toList else "fa-robot".toList]
    let timeElement := ContentNode.time (timeText now)
    if sender = "bot".toList then
      match markedParse message with
      | none => none
      | some messageHTML =>
        some (chatMessages ++
          [{ classList := messageClasses, iconClassList := iconClasses,
             content := [timeElement, ContentNode.markdown messageHTML] }])
    else
      some (chatMessages ++
        [{ classList := messageClasses, iconClassList := iconClasses,
           content := [timeElement, ContentNode.text (toStringJS message)] }])

/-- The element built by lines 228-256. -/
def typingIndicator : Entry :=
  { classList := ["message".toList, "bot".toList, "typing-indicator".toList],
    iconClassList := ["fas".toList, "fa-robot".toList],
    content := [ContentNode.typingDots 3] }

/-- Lines 227-261. -/
def appendTypingIndicator (chatMessages : List Entry) : List Entry :=
  chatMessages ++ [typingIndicator]

/-- Whether an entry matches the selector `.typing-indicator`. -/
def isTypingIndicator (e : Entry) : Bool :=
  classListContains e.classList "typing-indicator".toList

/-- The search of `document.querySelector('.typing-indicator')` through the
children of a `message-content` element, in document order, followed by the
removal of the element found (`none` when there is none).  Only the markup
assigned to a `markdown-content` wrapper can hold such an element:
`removeInMarkup html` is that markup after the first element of class
`typing-indicator` of its parsed content is removed, and `none` when the parsed
content holds no such element. -/
def removeInContent (removeInMarkup : JSString → Option JSString) :
    List ContentNode → Option (List ContentNode)
  | [] => none
  | .markdown html :: rest =>
    match removeInMarkup html with
    | some remaining => some (.markdown remaining :: rest)
    | none => (removeInContent removeInMarkup rest).map fun r => .markdown html :: r
  | node :: rest => (removeInContent removeInMarkup rest).map fun r => node :: r

/-- The same search and removal through the children of `chatMessages` in
document order: an entry comes before its own content, and its content before
the next entry.  The avatar, the icon, the time stamp and the dots carry the
fixed classes the script gives them. -/
def removeInEntries (removeInMarkup : JSString → Option JSString) :
    List Entry → Option (List Entry)
  | [] => none
  | e :: es =>
    if isTypingIndicator e then some es
    else
      match removeInContent removeInMarkup e.content with
      | some content => some ({ e with content := content } :: es)
      | none => (removeInEntries removeInMarkup es).map fun r => e :: r

/-- Lines 264-269: the first element of the document matching
`.typing-indicator`, if any, is removed, wherever it is: before the chat list,
a typing placeholder, or an element inside the markup of a bot message. -/
def removeTypingIndicator (removeInMarkup : JSString → Option JSString)
    (s : ChatState) : ChatState :=
  if 0 < s.matchesBefore then { s with matchesBefore := s.matchesBefore - 1 }
  else
    match removeInEntries removeInMarkup s.messages with
    | some messages => { s with messages := messages }
    | none => s

/-- The `fetch` call of lines 150-156. -/
def chatRequest (message : JSString) : Request :=
  { url := "/api/chat".toList, method := "POST".toList,
    contentType := "application/json".toList, message := message }

/-- Lines 136-176, up to and including the call of `fetch`.  A string is
truthy exactly when it is not empty. -/
def sendMessage (markedParse : JSValue → Option JSString) (now : Clock)
    (s : ChatState) : ChatState :=
  let message := trim s.input
  if message ≠ [] then
    match appendMessage markedParse now (.str message) "user".toList s.messages with
    | none => s
    | some withUser =>
      { s with
        input := []
        messages := appendTypingIndicator withUser
        pending := s.pending ++ [chatRequest message]
        issued := s.issued + 1 }
  else s

/-- The body of a chat response after `response.json()`: JSON `null`, on which
the property access `data.response` throws, or any other value, given by what
`data.response` evaluates to (`undefined` when there is no such property). -/
inductive JsonBody where
  | null
  | value (response : JSValue)
  deriving DecidableEq, Repr

/-- How a request settles: `fetch` or `response.json()` rejects (network or
parse failure), or the body is parsed. -/
inductive FetchResult where
  | rejected
  | resolved (data : JsonBody)
  deriving DecidableEq, Repr

/-- The fixed text of line 170. -/
def fallbackText : JSString :=
  "Sorry, I encountered an error processing your request.".toList

/-- Lines 158-165, the fulfilment handler.  `Except.error` carries the state
at the moment an exception is thrown. -/
def onChatFulfilled (removeInMarkup : JSString → Option JSString)
    (markedParse : JSValue → Option JSString) (now : Clock)
    (data : JsonBody) (s : ChatState) : Except ChatState ChatState :=
  let removed := removeTypingIndicator removeInMarkup s
  match data with
  | .null => .error removed
  | .value response =>
    match appendMessage markedParse now response "bot".toList removed.messages with
    | none => .error removed
    | some appended => .ok { removed with messages := appended }

/-- Lines 166-174, the rejection handler.  When `appendMessage` throws inside
it, the rejection stays unhandled and the list is left as it is. -/
def onChatRejected (removeInMarkup : JSString → Option JSString)
    (markedParse : JSValue → Option JSString) (now : Clock)
    (s : ChatState) : ChatState :=
  let removed := removeTypingIndicator removeInMarkup s
  match appendMessage markedParse now (.str fallbackText) "bot".toList removed.messages with
  | none => removed
  | some appended => { removed with messages := appended }

/-- The promise chain of lines 157-174 applied to a settled request: a
rejection, or an exception thrown by the fulfilment handler, runs the
rejection handler. -/
def settleChat (removeInMarkup : JSString → Option JSString)
    (markedParse : JSValue → Option JSString) (now : Clock)
    (result : FetchResult) (s : ChatState) : ChatState :=
  match result with
  | .rejected => onChatRejected removeInMarkup markedParse now s
  | .resolved data =>
    match onChatFulfilled removeInMarkup markedParse now data s with
    | .ok appended => appended
    | .error atThrow => onChatRejected removeInMarkup markedParse now atThrow

/-- The pending request number `i` settles with `result`.  Nothing happens
when there is no such request. -/
def completeRequest (removeInMarkup : JSString → Option JSString)
    (markedParse : JSValue → Option JSString) (now : Clock)
    (i : Nat) (result : FetchResult) (s : ChatState) : ChatState :=
  if i < s.pending.length then
    settleChat removeInMarkup markedParse now result
      { s with pending := s.pending.eraseIdx i }
  else s

/-- What can happen to the chat: the user edits the input box, `sendMessage`
is called (send button, Enter key or quick query), or a pending request
settles. -/
inductive ChatStep where
  | setInput (text : JSString)
  | send (now : Clock)
  | complete (i : Nat) (result : FetchResult) (now : Clock)
  deriving DecidableEq, Repr

/-- One step of the chat. -/
def chatStep (removeInMarkup : JSString → Option JSString)
    (markedParse : JSValue → Option JSString) (s : ChatState) :
    ChatStep → ChatState
  | .setInput text => { s with input := text }
  | .send now => sendMessage markedParse now s
  | .complete i result now => completeRequest removeInMarkup markedParse now i result s

/-- A sequence of steps, run in order. -/
def runChat (removeInMarkup : JSString → Option JSString)
    (markedParse : JSValue → Option JSString) (steps : List ChatStep)
    (s : ChatState) : ChatState :=
  steps.foldl (chatStep removeInMarkup markedParse) s

/-- The number of typing placeholders in the message list. -/
def countTyping (chatMessages : List Entry) : Nat :=
  chatMessages.countP isTypingIndicator

/-- The entries that are messages: everything but the typing placeholders. -/
def messageEntries (chatMessages : List Entry) : List Entry :=
  chatMessages.filter fun e => !isTypingIndicator e

/-- No markup held by an entry of the list contains an element of class
`typing-indicator`. -/
def noTypingMarkup (removeInMarkup : JSString → Option JSString)
    (chatMessages : List Entry) : Bool :=
  chatMessages.all fun e => e.content.all fun node =>
    match node with
    | .markdown html => (removeInMarkup html).isNone
    | _ => true

/-- A state of the chat in which nothing is in flight and the typing
placeholders to come are the only elements of class `typing-indicator` that
matter: no pending request, no placeholder, and no other element of that class
before or inside the chat list. -/
def ChatIdle (removeInMarkup : JSString → Option JSString) (s : ChatState) : Prop :=
  s.pending = [] ∧ s.matchesBefore = 0 ∧ countTyping s.messages = 0
    ∧ noTypingMarkup removeInMarkup s.messages = true

/-- A step that neither throws in a fulfilment handler nor brings an element
of class `typing-indicator` into a bot message: every step but the settling of
a request with a body on which `data.response` or `marked.parse` throws, or
whose rendering (of the response, or of the fallback text after a failure)
holds such an element. -/
def stepClean (removeInMarkup : JSString → Option JSString)
    (markedParse : JSValue → Option JSString) : ChatStep → Bool
  | .complete _ (.resolved .null) _ => false
  | .complete _ (.resolved (.value response)) _ =>
    match markedParse response with
    | some html => (removeInMarkup html).isNone
    | none => false
  | .complete _ .rejected _ =>
    match markedParse (.str fallbackText) with
    | some html => (removeInMarkup html).isNone
    | none => true
  | _ => true

/-- Two content nodes that are equal, or both markup wrappers. -/
def sameUpToMarkup (a b : ContentNode) : Prop :=
  a = b ∨ ∃ html remaining, a = .markdown html ∧ b = .markdown remaining

/-- Two entries that are the same message element: equal class lists, equal
icons, and contents that differ at most in the markup of a wrapper. -/
def sameMessage (e after : Entry) : Prop :=
  after.classList = e.classList ∧ after.iconClassList = e.iconClassList
    ∧ List.Forall₂ sameUpToMarkup e.content after.content

/-- A stand-in for `marked.parse` on concrete inputs: a string is wrapped in a
paragraph and raw HTML in it is kept as it is, as `marked` does by default for
inline HTML; anything but a string throws. -/
def paragraphRenderer : JSValue → Option JSString
  | .str s => some ("<p>".toList ++ s ++ "</p>\n".toList)
  | _ => none

/-- The characters after the first occurrence of `closing`. -/
def dropThrough (closing : JSString) : JSString → JSString
  | [] => []
  | c :: s =>
    if closing.isPrefixOf (c :: s) then (c :: s).drop closing.length
    else dropThrough closing s

/-- A stand-in for the browser's parser on concrete inputs: the first element
written as `<span class="typing-indicator">...</span>`, without a span nested
in it, is cut out of the markup; markup without such a span holds no match. -/
def spanRemover : JSString → Option JSString
  | [] => none
  | c :: s =>
    if "<span class=\"typing-indicator\">".toList.isPrefixOf (c :: s) then
      some (dropThrough "</span>".toList
        ((c :: s).drop "<span class=\"typing-indicator\">".toList.length))
    else (spanRemover s).map fun r => c :: r

/-- The empty chat: nothing typed, no entries, nothing in flight, and no
element of class `typing-indicator` elsewhere. -/
def emptyChat : ChatState :=
  { input := [], messages := [], pending := [], issued := 0, matchesBefore := 0 }

/-! ## Events (lines 277-372) -/

/-- An event record as it arrives in the JSON response; every field is
whatever value the response holds for it (`undefined` when it is missing). -/
structure Event where
  sport : JSValue
  status : JSValue
  date : JSValue
  home_team : JSValue
  away_team : JSValue
  home_score : JSValue
  away_score : JSValue
  competition : JSValue
  location : JSValue
  deriving DecidableEq, Repr

/-- The locale-dependent methods of `new Date(event.date)` that
`createEventCard` calls, as functions of `event.date`: the two formatters with
the options of lines 330-341, and `getFullYear` (`none` for `NaN`). -/
structure DateOps where
  toLocaleDateString : JSValue → JSString
  toLocaleTimeString : JSValue → JSString
  getFullYear : JSValue → Option Int

/-- The element built by `createEventCard`: its class list, the markup
assigned to its `innerHTML`, and the index `i` from which `loadEvents` sets
`style.animationDelay` to `i * 0.1` seconds (`none` while unset). -/
structure EventCard where
  classList : List JSString
  innerHTML : JSString
  animationDelayIndex : Option Nat
  deriving DecidableEq, Repr

/-- Lines 321-326: the local variable `statusClass`, by strict equality of
`event.status` with the two string constants. -/
def statusClass (status : JSValue) : JSString :=
  if status = .str "LIVE".toList then "live".toList
  else if status = .str "COMPLETED".toList then "completed".toList
  else "upcoming".toList

/-- Lines 359 and 364: the score element, present unless the score is `undefined`. -/
def teamScore (score : JSValue) : JSString :=
  if score ≠ .undefined then
    "<div class=\"team-score\">".toList ++ toStringJS score ++ "</div>".toList
  else []

/-- Lines 350-369: the template literal assigned to `eventCard.innerHTML`. -/
def eventCardHTML (event : Event) (formattedDate formattedTime : JSString)
    (is2025 : Bool) : JSString :=
  "\n".toList ++
    "            <div class=\"event-status ".toList ++
    statusClass event.status ++
    "\">".toList ++
    toStringJS event.status ++
    "</div>\n".toList ++
    "            <div class=\"event-date\">\n".toList ++
    "                <i class=\"far fa-calendar-alt\"></i> ".toList ++
    formattedDate ++
    " at ".toList ++
    formattedTime ++
    "\n".toList ++
    "                ".toList ++
    (if is2025 then "<span class=\"future-badge\">2025</span>".toList else []) ++
    "\n".toList ++
    "            </div>\n".toList ++
    "            <div class=\"event-teams\">\n".toList ++
    "                <div class=\"team\">\n".toList ++
    "                    <div class=\"team-name\">".toList ++
    toStringJS event.home_team ++
    "</div>\n".toList ++
    "                    ".toList ++
    teamScore event.home_score ++
    "\n".toList ++
    "                </div>\n".toList ++
    "                <div class=\"vs\">VS</div>\n".toList ++
    "                <div class=\"team\">\n".toList ++
    "                    <div class=\"team-name\">".toList ++
    toStringJS event.away_team ++
    "</div>\n".toList ++
    "                    ".toList ++
    teamScore event.away_score ++
    "\n".toList ++
    "                </div>\n".toList ++
    "            </div>\n".toList ++
    "            <div class=\"event-info\">".toList ++
    toStringJS event.competition ++
    "</div>\n".toList ++
    "            <div class=\"event-venue\"><i class=\"fas fa-map-marker-alt\"></i> ".toList ++
    toStringJS event.location ++
    "</div>\n".toList ++
    "        ".toList

/-- Lines 317-372.  The result is `none` when the function throws: when
`event.sport` is not a string (the call of `toLowerCase` fails) or when
`classList.add` rejects the lower-cased sport as a class token. -/
def createEventCard (toLowerCase : JSString → JSString) (dateOps : DateOps)
    (event : Event) : Option EventCard :=
  match event.sport with
  | .str sport =>
    match classListAdd [] ["event-card".toList, toLowerCase sport] with
    | none => none
    | some cardClasses =>
      let formattedDate := dateOps.toLocaleDateString event.date
      let formattedTime := dateOps.toLocaleTimeString event.date
      let is2025 : Bool := dateOps.getFullYear event.date = some 2025
      let classes :=
        if is2025 then (classListAdd cardClasses ["future-event".toList]).getD cardClasses
        else cardClasses
      some { classList := classes,
             innerHTML := eventCardHTML event formattedDate formattedTime is2025,
             animationDelayIndex := none }
  | _ => none

/-- What `eventsList` holds: markup assigned to its `innerHTML`, or the cards
appended after it was cleared. -/
inductive EventsList where
  | markup (innerHTML : JSString)
  | cards (children : List EventCard)
  deriving DecidableEq, Repr

/-- The events part of the page: the content of `eventsList` and the URLs of
the event requests issued so far. -/
structure EventsState where
  eventsList : EventsList
  requests : List JSString
  deriving DecidableEq, Repr

/-- Line 279: the loading indicator. -/
def loadingHTML : JSString :=
  "<div class=\"loading\"><i class=\"fas fa-spinner fa-spin\"></i> Loading events...</div>".toList

/-- Line 292: what the empty-state message names. -/
def emptyStateSubject (type : JSString) : JSString :=
  if type ≠ "all".toList then type else "sports".toList

/-- Lines 289-294: the empty-state message. -/
def emptyStateHTML (type : JSString) : JSString :=
  "\n".toList ++
    "                        <div class=\"no-events\">\n".toList ++
    "                            <i class=\"fas fa-calendar-times\"></i>\n".toList ++
    "                            <p>No ".toList ++
    emptyStateSubject type ++
    " events found.</p>\n".toList ++
    "                        </div>\n".toList ++
    "                    ".toList

/-- Lines 306-311: the error-state message. -/
def errorHTML : JSString :=
  "\n".toList ++
    "                    <div class=\"error\">\n".toList ++
    "                        <i class=\"fas fa-exclamation-circle\"></i>\n".toList ++
    "                        <p>Error loading events. Please try again.</p>\n".toList ++
    "                    </div>\n".toList ++
    "                ".toList

/-- Lines 277-282: `loadEvents(type)` up to and including the call of `fetch`.
A call without argument is `loadEvents('all')`. -/
def loadEvents (type : JSString) (s : EventsState) : EventsState :=
  { eventsList := .markup loadingHTML,
    requests := s.requests ++ ["/api/sports/events?type=".toList ++ type] }

/-- The body of an events response after `response.json()`: the request or the
parsing failed (`rejected`); JSON `null`, which has no `length`; an array; or
any other value, of which only matters whether its `length` is `0` (it has no
`forEach`). -/
inductive EventsResult where
  | rejected
  | null
  | array (events : List Event)
  | nonArray (lengthIsZero : Bool)
  deriving DecidableEq, Repr

/-- Lines 299-303: the cards of the events from position `index` on, `none`
when `createEventCard` throws on one of them. -/
def renderCards (toLowerCase : JSString → JSString) (dateOps : DateOps) :
    List Event → Nat → Option (List EventCard)
  | [], _ => some []
  | event :: events, index =>
    match createEventCard toLowerCase dateOps event with
    | none => none
    | some eventCard =>
      match renderCards toLowerCase dateOps events (index + 1) with
      | none => none
      | some rest => some ({ eventCard with animationDelayIndex := some index } :: rest)

/-- Lines 283-313: what happens when the request of `loadEvents(type)` settles.
Every exception thrown in the fulfilment handler ends in the rejection handler,
which replaces the content by the error message. -/
def onEventsSettled (toLowerCase : JSString → JSString) (dateOps : DateOps)
    (type : JSString) (result : EventsResult) (s : EventsState) : EventsState :=
  match result with
  | .rejected => { s with eventsList := .markup errorHTML }
  | .null => { s with eventsList := .markup errorHTML }
  | .nonArray lengthIsZero =>
    if lengthIsZero then { s with eventsList := .markup (emptyStateHTML type) }
    else { s with eventsList := .markup errorHTML }
  | .array events =>
    if events.length = 0 then { s with eventsList := .markup (emptyStateHTML type) }
    else
      match renderCards toLowerCase dateOps events 0 with
      | some eventCards => { s with eventsList := .cards eventCards }
      | none => { s with eventsList := .markup errorHTML }

/-- A stand-in for the date methods on concrete inputs: fixed texts and the
year 2025. -/
def sampleDateOps : DateOps :=
  { toLocaleDateString := fun _ => "Sat, Mar 1, 2025".toList,
    toLocaleTimeString := fun _ => "08:00 PM".toList,
    getFullYear := fun _ => some 2025 }

/-- An event record for concrete evaluation, with the status left open. -/
def sampleEvent (status : JSValue) : Event :=
  { sport := .str "Soccer".toList, status := status,
    date := .str "2025-03-01T20:00:00".toList,
    home_team := .str "Lions".toList, away_team := .str "Tigers".toList,
    home_score := .other "2".toList, away_score := .undefined,
    competition := .str "Cup".toList, location := .str "Arena".toList }

/-! ## Entries and cards named in the statements -/

/-- The entry of a user message with text `message`, stamped at `now`. -/
def userEntry (now : Clock) (message : JSString) : Entry :=
  { classList := ["message".toList, "user".toList],
    iconClassList := ["fas".toList, "fa-user".toList],
    content := [ContentNode.time (timeText now), ContentNode.text message] }

/-- The entry of a bot message whose `markdown-content` wrapper holds the
markup `html`, stamped at `now`. -/
def botEntry (now : Clock) (html : JSString) : Entry :=
  { classList := ["message".toList, "bot".toList],
    iconClassList := ["fas".toList, "fa-robot".toList],
    content := [ContentNode.time (timeText now), ContentNode.markdown html] }

/-- The start of the markup of a card, up to the status class. -/
def statusOpenTag : JSString :=
  "\n            <div class=\"event-status ".toList

/-! ## Auxiliary lemmas -/

set_option maxRecDepth 100000

theorem includes_iff (s t : JSString) : includes s t = true ↔ t <:+: s := by
  induction s with
  | nil => cases t <;> simp [includes]
  | cons c s ih =>
    simp only [includes, Bool.or_eq_true, ih, List.infix_cons_iff, List.isPrefixOf_iff_prefix]

theorem trim_eq_nil_of_all (s : JSString) (h : ∀ c ∈ s, isWhiteSpace c = true) :
    trim s = [] := by
  have h1 : s.dropWhile isWhiteSpace = [] := List.dropWhile_eq_nil_iff.mpr h
  simp [trim, h1]

/-! ## Searching -/

/-- C1 (as stated, refuted): with the query `" a"` and one card of text `"ba"`,
the text does not contain the query in any case, yet `searchEvents` leaves the
card visible, because the query is trimmed before the comparison. -/
theorem searchEvents_untrimmed_query_counterexample :
    searchEvents asciiToLowerCase " a".toList [{ textContent := "ba".toList, display := [] }]
        = [{ textContent := "ba".toList, display := "block".toList }]
      ∧ ¬ (asciiToLowerCase " a".toList <:+: asciiToLowerCase "ba".toList) := by
  decide

/-- C1 (amended): for every list of cards and every query, `searchEvents`
changes only the display of the cards, and a card ends hidden (`none`) exactly
when its lower-cased text does not contain the lower-cased and trimmed query,
and visible (`block`) exactly when it does. -/
theorem searchEvents_hides_exactly (toLowerCase : JSString → JSString)
    (query : JSString) (cards : List Card) :
    List.Forall₂
      (fun before after =>
        after.textContent = before.textContent
        ∧ (after.display = "none".toList ↔
            ¬ (trim (toLowerCase query) <:+: toLowerCase before.textContent))
        ∧ (after.display = "block".toList ↔
            trim (toLowerCase query) <:+: toLowerCase before.textContent))
      cards (searchEvents toLowerCase query cards) := by
  unfold searchEvents
  by_cases hq : trim (toLowerCase query) = []
  · simp only [hq, if_true]
    rw [List.forall₂_map_right_iff, List.forall₂_same]
    intro card _
    refine ⟨rfl, ?_, ?_⟩
    · simp only [List.nil_infix, not_true_eq_false, iff_false]
      decide
    · simp
  · simp only [hq, if_false]
    rw [List.forall₂_map_right_iff, List.forall₂_same]
    intro card _
    by_cases hc : includes (toLowerCase card.textContent) (trim (toLowerCase query)) = true
    · have hi := (includes_iff _ _).mp hc
      rw [if_pos hc]
      refine ⟨rfl, ?_, ?_⟩
      · simp only [hi, not_true_eq_false, iff_false]
        decide
      · simp [hi]
    · have hi : ¬ (trim (toLowerCase query) <:+: toLowerCase card.textContent) :=
        fun h => hc ((includes_iff _ _).mpr h)
      rw [if_neg hc]
      refine ⟨rfl, ?_, ?_⟩
      · simp [hi]
      · simp only [hi, iff_false]
        decide

/-- C7: when lower-casing maps the empty string to itself, `searchEvents("")`
keeps the number and the text of the cards and makes every card visible,
whatever its display was. -/
theorem searchEvents_empty_query (toLowerCase : JSString → JSString)
    (hlower : toLowerCase [] = []) (cards : List Card) :
    (searchEvents toLowerCase [] cards).length = cards.length
      ∧ (searchEvents toLowerCase [] cards).map Card.textContent = cards.map Card.textContent
      ∧ ∀ card ∈ searchEvents toLowerCase [] cards, card.display = "block".toList := by
  have ht : trim ([] : JSString) = [] := by decide
  simp only [searchEvents, hlower, ht, if_true]
  refine ⟨by simp, ?_, ?_⟩
  · simp [List.map_map, Function.comp_def]
  · intro card hcard
    obtain ⟨c, _, rfl⟩ := List.mem_map.mp hcard
    rfl

/-- C7, on two cards of which one is hidden. -/
theorem searchEvents_empty_query_witness :
    asciiToLowerCase [] = []
      ∧ ∀ card ∈ searchEvents asciiToLowerCase []
          [{ textContent := "Lions".toList, display := "none".toList },
           { textContent := "Tigers".toList, display := "block".toList }],
        card.display = "block".toList :=
  ⟨rfl, (searchEvents_empty_query asciiToLowerCase rfl _).2.2⟩

/-! ## Theme switch -/

/-- C6 (as stated, refuted): with no stored flag and a body without
`dark-mode`, two clicks leave the flag at `light`, not absent. -/
theorem theme_absent_flag_counterexample :
    (themeSwitchClick (themeSwitchClick
        (initTheme { bodyClassList := [], theme := none }))).theme = some "light".toList
      ∧ (themeSwitchClick (themeSwitchClick
        (initTheme { bodyClassList := [], theme := none }))).theme
          ≠ ({ bodyClassList := [], theme := none } : ThemeState).theme := by
  decide

theorem classListToggle_absent (cl : List JSString) (t : JSString) (h : t ∉ cl) :
    classListToggle cl t = cl ++ [t] := by
  simp [classListToggle, classListContains, h]

theorem classListToggle_last (cl : List JSString) (t : JSString) (h : t ∉ cl) :
    classListToggle (cl ++ [t]) t = cl := by
  have hf : cl.filter (fun u => decide (u ≠ t)) = cl := by
    apply List.filter_eq_self.mpr
    intro u hu
    have : u ≠ t := fun e => h (e ▸ hu)
    simpa using this
  have hc : (cl ++ [t]).contains t = true := by simp
  simp only [classListToggle, classListContains, hc, if_true, List.filter_append, hf]
  simp

theorem themeSwitchClick_light (cl : List JSString) (flag : Option JSString)
    (h : "dark-mode".toList ∉ cl) :
    themeSwitchClick { bodyClassList := cl, theme := flag }
      = { bodyClassList := cl ++ ["dark-mode".toList], theme := some "dark".toList } := by
  simp only [themeSwitchClick, classListToggle_absent cl _ h]
  simp [classListContains]

theorem themeSwitchClick_dark (cl : List JSString) (flag : Option JSString)
    (h : "dark-mode".toList ∉ cl) :
    themeSwitchClick { bodyClassList := cl ++ ["dark-mode".toList], theme := flag }
      = { bodyClassList := cl, theme := some "light".toList } := by
  have hc : cl.contains "dark-mode".toList = false := by simpa using h
  simp only [themeSwitchClick, classListToggle_last cl _ h, classListContains, hc]
  simp

theorem initTheme_dark (cl : List JSString) (h : "dark-mode".toList ∉ cl) :
    initTheme { bodyClassList := cl, theme := some "dark".toList }
      = { bodyClassList := cl ++ ["dark-mode".toList], theme := some "dark".toList } := by
  have hvalid : validToken "dark-mode".toList = true := by decide
  have hadd : classListAdd cl ["dark-mode".toList] = some (cl ++ ["dark-mode".toList]) := by
    have hc : cl.contains "dark-mode".toList = false := by simpa using h
    simp only [classListAdd, List.all_cons, hvalid, List.all_nil, Bool.and_self, if_true,
      List.foldl_cons, List.foldl_nil, classListContains, hc]
    simp
  simp only [initTheme, if_true, hadd]

theorem initTheme_other (cl : List JSString) (saved : Option JSString)
    (h : saved ≠ some "dark".toList) :
    initTheme { bodyClassList := cl, theme := saved }
      = { bodyClassList := cl, theme := saved } := by
  simp only [initTheme, h, if_false]

/-- C6 (amended): when the markup of the body does not carry `dark-mode`, and
the page is initialised from the stored flag, two clicks on the theme control
leave the flag equal to its value before the clicks if that value was `dark`
or `light`; from any other value, and from an absent flag, they leave it at
`light`. -/
theorem theme_two_clicks (bodyClasses : List JSString) (saved : Option JSString)
    (hbody : "dark-mode".toList ∉ bodyClasses) :
    ((saved = some "dark".toList ∨ saved = some "light".toList) →
        (themeSwitchClick (themeSwitchClick
          (initTheme { bodyClassList := bodyClasses, theme := saved }))).theme = saved)
      ∧ (saved ≠ some "dark".toList →
        (themeSwitchClick (themeSwitchClick
          (initTheme { bodyClassList := bodyClasses, theme := saved }))).theme
            = some "light".toList) := by
  have hdl : (some "light".toList : Option JSString) ≠ some "dark".toList := by decide
  have hlight : saved ≠ some "dark".toList →
      (themeSwitchClick (themeSwitchClick
        (initTheme { bodyClassList := bodyClasses, theme := saved }))).theme
          = some "light".toList := by
    intro hs
    rw [initTheme_other _ _ hs, themeSwitchClick_light _ _ hbody,
      themeSwitchClick_dark _ _ hbody]
  refine ⟨?_, hlight⟩
  rintro (hs | hs)
  · subst hs
    rw [initTheme_dark _ hbody, themeSwitchClick_dark _ _ hbody,
      themeSwitchClick_light _ _ hbody]
  · rw [hlight (by rw [hs]; exact hdl), hs]

/-- C6 (amended), from the stored flag `dark` on a body with one other class. -/
theorem theme_two_clicks_witness :
    "dark-mode".toList ∉ ["home".toList]
      ∧ (themeSwitchClick (themeSwitchClick
          (initTheme { bodyClassList := ["home".toList], theme := some "dark".toList }))).theme
            = some "dark".toList :=
  ⟨by decide, (theme_two_clicks ["home".toList] (some "dark".toList) (by decide)).1 (Or.inl rfl)⟩

/-! ## Chat -/

theorem appendMessage_user (markedParse : JSValue → Option JSString) (now : Clock)
    (message : JSString) (chatMessages : List Entry) :
    appendMessage markedParse now (.str message) "user".toList chatMessages
      = some (chatMessages ++ [userEntry now message]) := by
  have hadd : classListAdd [] ["message".toList, "user".toList]
      = some ["message".toList, "user".toList] := by decide
  have hne : ("user".toList : JSString) ≠ "bot".toList := by decide
  simp only [appendMessage, hadd, if_neg hne, if_true, userEntry, toStringJS]

theorem appendMessage_bot (markedParse : JSValue → Option JSString) (now : Clock)
    (message : JSValue) (chatMessages : List Entry) :
    appendMessage markedParse now message "bot".toList chatMessages
      = (markedParse message).map fun html => chatMessages ++ [botEntry now html] := by
  have hadd : classListAdd [] ["message".toList, "bot".toList]
      = some ["message".toList, "bot".toList] := by decide
  have hne : ("bot".toList : JSString) ≠ "user".toList := by decide
  simp only [appendMessage, hadd, if_neg hne, if_true, botEntry]
  cases markedParse message <;> rfl

theorem isTypingIndicator_userEntry (now : Clock) (message : JSString) :
    isTypingIndicator (userEntry now message) = false := by
  simp only [isTypingIndicator, userEntry, classListContains]
  decide

theorem isTypingIndicator_botEntry (now : Clock) (html : JSString) :
    isTypingIndicator (botEntry now html) = false := by
  simp only [isTypingIndicator, botEntry, classListContains]
  decide

theorem isTypingIndicator_typingIndicator : isTypingIndicator typingIndicator = true := by
  decide

theorem countTyping_append_one (l : List Entry) (e : Entry) :
    countTyping (l ++ [e]) = countTyping l + if isTypingIndicator e then 1 else 0 := by
  simp [countTyping, List.countP_append, List.countP_cons]

theorem messageEntries_append_one (l : List Entry) (e : Entry) :
    messageEntries (l ++ [e]) = messageEntries l ++ if isTypingIndicator e then [] else [e] := by
  by_cases he : isTypingIndicator e = true <;> simp [messageEntries, List.filter_append, he]

theorem messageEntries_cons_typing (e : Entry) (es : List Entry)
    (he : isTypingIndicator e = true) : messageEntries (e :: es) = messageEntries es := by
  simp [messageEntries, he]

theorem messageEntries_cons_message (e : Entry) (es : List Entry)
    (he : ¬ isTypingIndicator e = true) : messageEntries (e :: es) = e :: messageEntries es := by
  simp [messageEntries, he]

theorem countTyping_cons_typing (e : Entry) (es : List Entry)
    (he : isTypingIndicator e = true) : countTyping (e :: es) = countTyping es + 1 := by
  simp [countTyping, List.countP_cons, he]

theorem countTyping_cons_message (e : Entry) (es : List Entry)
    (he : ¬ isTypingIndicator e = true) : countTyping (e :: es) = countTyping es := by
  simp [countTyping, List.countP_cons, he]

/-! ### Relating the list before and after a removal -/

theorem forall₂_trans_of {α : Type} {R : α → α → Prop}
    (htrans : ∀ a b c, R a b → R b c → R a c) {l₁ l₂ : List α}
    (h₁₂ : List.Forall₂ R l₁ l₂) :
    ∀ {l₃ : List α}, List.Forall₂ R l₂ l₃ → List.Forall₂ R l₁ l₃ := by
  induction h₁₂ with
  | nil =>
    intro l₃ h
    cases h
    exact List.Forall₂.nil
  | cons hab _ ih =>
    intro l₃ h
    cases h with
    | cons hbc hrest => exact List.Forall₂.cons (htrans _ _ _ hab hbc) (ih hrest)

theorem forall₂_append_one_left {α : Type} {R : α → α → Prop} (l : List α) (a : α) :
    ∀ after : List α, List.Forall₂ R (l ++ [a]) after →
      ∃ earlier b, after = earlier ++ [b] ∧ List.Forall₂ R l earlier ∧ R a b := by
  induction l with
  | nil =>
    intro after h
    cases h with
    | cons hab hrest =>
      cases hrest
      exact ⟨[], _, rfl, List.Forall₂.nil, hab⟩
  | cons c l ih =>
    intro after h
    cases h with
    | cons hcb hrest =>
      obtain ⟨earlier, b, rfl, hearlier, hab⟩ := ih _ hrest
      exact ⟨_ :: earlier, b, rfl, List.Forall₂.cons hcb hearlier, hab⟩

theorem sameUpToMarkup_refl (a : ContentNode) : sameUpToMarkup a a := Or.inl rfl

theorem sameUpToMarkup_trans (a b c : ContentNode) (hab : sameUpToMarkup a b)
    (hbc : sameUpToMarkup b c) : sameUpToMarkup a c := by
  rcases hab with rfl | ⟨h₁, h₂, rfl, rfl⟩
  · exact hbc
  · rcases hbc with rfl | ⟨h₃, h₄, hb, rfl⟩
    · exact Or.inr ⟨h₁, h₂, rfl, rfl⟩
    · exact Or.inr ⟨h₁, h₄, rfl, rfl⟩

theorem sameMessage_refl (e : Entry) : sameMessage e e :=
  ⟨rfl, rfl, List.forall₂_same.mpr fun a _ => sameUpToMarkup_refl a⟩

theorem sameMessage_trans (a b c : Entry) (hab : sameMessage a b) (hbc : sameMessage b c) :
    sameMessage a c :=
  ⟨hbc.1.trans hab.1, hbc.2.1.trans hab.2.1,
    forall₂_trans_of sameUpToMarkup_trans hab.2.2 hbc.2.2⟩

theorem forall₂_sameMessage_refl (l : List Entry) : List.Forall₂ sameMessage l l :=
  List.forall₂_same.mpr fun e _ => sameMessage_refl e

theorem sameMessage_userEntry (now : Clock) (message : JSString) (e : Entry)
    (h : sameMessage (userEntry now message) e) : e = userEntry now message := by
  obtain ⟨hclass, hicon, hcontent⟩ := h
  cases e with
  | mk classList iconClassList content =>
    simp only [userEntry] at hclass hicon hcontent ⊢
    subst hclass hicon
    cases hcontent with
    | cons htime hrest =>
      cases hrest with
      | cons htext hnil =>
        cases hnil
        rcases htime with rfl | ⟨_, _, habs, _⟩
        · rcases htext with rfl | ⟨_, _, habs, _⟩
          · rfl
          · exact absurd habs (by simp)
        · exact absurd habs (by simp)

theorem removeInContent_same (removeInMarkup : JSString → Option JSString) :
    ∀ content remaining : List ContentNode,
      removeInContent removeInMarkup content = some remaining →
      List.Forall₂ sameUpToMarkup content remaining := by
  intro content
  induction content with
  | nil =>
    intro remaining h
    simp [removeInContent] at h
  | cons node rest ih =>
    intro remaining h
    have htail : ∀ r, removeInContent removeInMarkup rest = some r →
        List.Forall₂ sameUpToMarkup (node :: rest) (node :: r) :=
      fun r hr => List.Forall₂.cons (sameUpToMarkup_refl node) (ih r hr)
    cases node with
    | markdown html =>
      simp only [removeInContent] at h
      cases hm : removeInMarkup html with
      | some cut =>
        simp only [hm, Option.some.injEq] at h
        subst h
        exact List.Forall₂.cons (Or.inr ⟨html, cut, rfl, rfl⟩)
          (List.forall₂_same.mpr fun a _ => sameUpToMarkup_refl a)
      | none =>
        simp only [hm, Option.map_eq_some'] at h
        obtain ⟨r, hr, rfl⟩ := h
        exact htail r hr
    | time text =>
      simp only [removeInContent, Option.map_eq_some'] at h
      obtain ⟨r, hr, rfl⟩ := h
      exact htail r hr
    | text data =>
      simp only [removeInContent, Option.map_eq_some'] at h
      obtain ⟨r, hr, rfl⟩ := h
      exact htail r hr
    | typingDots dots =>
      simp only [removeInContent, Option.map_eq_some'] at h
      obtain ⟨r, hr, rfl⟩ := h
      exact htail r hr

theorem removeInEntries_same (removeInMarkup : JSString → Option JSString) :
    ∀ l remaining : List Entry, removeInEntries removeInMarkup l = some remaining →
      List.Forall₂ sameMessage (messageEntries l) (messageEntries remaining) := by
  intro l
  induction l with
  | nil =>
    intro remaining h
    simp [removeInEntries] at h
  | cons e es ih =>
    intro remaining h
    by_cases he : isTypingIndicator e = true
    · simp only [removeInEntries, he, if_true, Option.some.injEq] at h
      subst h
      rw [messageEntries_cons_typing e es he]
      exact forall₂_sameMessage_refl _
    · simp only [removeInEntries, he] at h
      cases hc : removeInContent removeInMarkup e.content with
      | some content =>
        simp only [hc, Bool.false_eq_true, if_false, Option.some.injEq] at h
        subst h
        have he2 : ¬ isTypingIndicator { e with content := content } = true := he
        rw [messageEntries_cons_message e es he, messageEntries_cons_message _ es he2]
        exact List.Forall₂.cons
          ⟨rfl, rfl, removeInContent_same removeInMarkup _ _ hc⟩
          (forall₂_sameMessage_refl _)
      | none =>
        simp only [hc, Bool.false_eq_true, if_false, Option.map_eq_some'] at h
        obtain ⟨r, hr, rfl⟩ := h
        rw [messageEntries_cons_message e es he, messageEntries_cons_message e r he]
        exact List.Forall₂.cons (sameMessage_refl e) (ih r hr)

theorem removeTypingIndicator_same (removeInMarkup : JSString → Option JSString)
    (s : ChatState) :
    List.Forall₂ sameMessage (messageEntries s.messages)
      (messageEntries (removeTypingIndicator removeInMarkup s).messages) := by
  unfold removeTypingIndicator
  by_cases hb : 0 < s.matchesBefore
  · rw [if_pos hb]
    exact forall₂_sameMessage_refl _
  · rw [if_neg hb]
    cases hr : removeInEntries removeInMarkup s.messages with
    | none => exact forall₂_sameMessage_refl _
    | some remaining => exact removeInEntries_same removeInMarkup _ _ hr

theorem removeTypingIndicator_rest (removeInMarkup : JSString → Option JSString)
    (s : ChatState) :
    (removeTypingIndicator removeInMarkup s).pending = s.pending
      ∧ (removeTypingIndicator removeInMarkup s).issued = s.issued
      ∧ (removeTypingIndicator removeInMarkup s).input = s.input := by
  unfold removeTypingIndicator
  by_cases hb : 0 < s.matchesBefore
  · rw [if_pos hb]
    exact ⟨rfl, rfl, rfl⟩
  · rw [if_neg hb]
    cases removeInEntries removeInMarkup s.messages <;> exact ⟨rfl, rfl, rfl⟩

/-! ### Removal when no markup holds a match -/

theorem removeInContent_clean (removeInMarkup : JSString → Option JSString) :
    ∀ content : List ContentNode,
      (content.all fun node =>
        match node with
        | .markdown html => (removeInMarkup html).isNone
        | _ => true) = true →
      removeInContent removeInMarkup content = none := by
  intro content
  induction content with
  | nil => intro _; rfl
  | cons node rest ih =>
    intro h
    rw [List.all_cons, Bool.and_eq_true] at h
    have hrest := ih h.2
    cases node with
    | markdown html =>
      have hnone : removeInMarkup html = none := Option.isNone_iff_eq_none.mp h.1
      simp only [removeInContent, hnone, hrest, Option.map_none']
    | time text => simp only [removeInContent, hrest, Option.map_none']
    | text data => simp only [removeInContent, hrest, Option.map_none']
    | typingDots dots => simp only [removeInContent, hrest, Option.map_none']

theorem noTypingMarkup_cons (removeInMarkup : JSString → Option JSString) (e : Entry)
    (es : List Entry) :
    noTypingMarkup removeInMarkup (e :: es)
      = (noTypingMarkup removeInMarkup [e] && noTypingMarkup removeInMarkup es) := by
  simp [noTypingMarkup]

theorem noTypingMarkup_append_one (removeInMarkup : JSString → Option JSString)
    (l : List Entry) (e : Entry) :
    noTypingMarkup removeInMarkup (l ++ [e])
      = (noTypingMarkup removeInMarkup l && noTypingMarkup removeInMarkup [e]) := by
  simp [noTypingMarkup, List.all_append]

theorem noTypingMarkup_userEntry (removeInMarkup : JSString → Option JSString)
    (now : Clock) (message : JSString) :
    noTypingMarkup removeInMarkup [userEntry now message] = true := by
  simp [noTypingMarkup, userEntry]

theorem noTypingMarkup_typingIndicator (removeInMarkup : JSString → Option JSString) :
    noTypingMarkup removeInMarkup [typingIndicator] = true := by
  simp [noTypingMarkup, typingIndicator]

theorem noTypingMarkup_botEntry (removeInMarkup : JSString → Option JSString)
    (now : Clock) (html : JSString) (h : removeInMarkup html = none) :
    noTypingMarkup removeInMarkup [botEntry now html] = true := by
  simp [noTypingMarkup, botEntry, h]

theorem removeInEntries_clean (removeInMarkup : JSString → Option JSString) :
    ∀ l : List Entry, noTypingMarkup removeInMarkup l = true →
      (removeInEntries removeInMarkup l = none ∧ countTyping l = 0)
      ∨ ∃ remaining, removeInEntries removeInMarkup l = some remaining
          ∧ countTyping remaining + 1 = countTyping l
          ∧ messageEntries remaining = messageEntries l
          ∧ noTypingMarkup removeInMarkup remaining = true := by
  intro l
  induction l with
  | nil => intro _; exact Or.inl ⟨rfl, rfl⟩
  | cons e es ih =>
    intro h
    rw [noTypingMarkup_cons, Bool.and_eq_true] at h
    by_cases he : isTypingIndicator e = true
    · refine Or.inr ⟨es, ?_, ?_, ?_, h.2⟩
      · simp only [removeInEntries, he, if_true]
      · rw [countTyping_cons_typing e es he]
      · rw [messageEntries_cons_typing e es he]
    · have hcontent : removeInContent removeInMarkup e.content = none := by
        apply removeInContent_clean
        have h1 := h.1
        simp only [noTypingMarkup, List.all_cons, List.all_nil, Bool.and_true] at h1
        exact h1
      have hstep : removeInEntries removeInMarkup (e :: es)
          = (removeInEntries removeInMarkup es).map fun r => e :: r := by
        simp only [removeInEntries, he, hcontent]
        rfl
      rcases ih h.2 with ⟨hnone, hzero⟩ | ⟨remaining, hsome, hcount, hmsgs, hclean⟩
      · refine Or.inl ⟨?_, ?_⟩
        · rw [hstep, hnone, Option.map_none']
        · rw [countTyping_cons_message e es he, hzero]
      · refine Or.inr ⟨e :: remaining, ?_, ?_, ?_, ?_⟩
        · rw [hstep, hsome, Option.map_some']
        · rw [countTyping_cons_message e es he, countTyping_cons_message e remaining he, hcount]
        · rw [messageEntries_cons_message e es he, messageEntries_cons_message e remaining he,
            hmsgs]
        · rw [noTypingMarkup_cons, Bool.and_eq_true]
          exact ⟨h.1, hclean⟩

theorem removeTypingIndicator_clean (removeInMarkup : JSString → Option JSString)
    (s : ChatState) (hclean : noTypingMarkup removeInMarkup s.messages = true) :
    messageEntries (removeTypingIndicator removeInMarkup s).messages = messageEntries s.messages
      ∧ noTypingMarkup removeInMarkup (removeTypingIndicator removeInMarkup s).messages = true
      ∧ (s.matchesBefore = 0 →
          countTyping (removeTypingIndicator removeInMarkup s).messages
              = countTyping s.messages - 1
            ∧ (removeTypingIndicator removeInMarkup s).matchesBefore = 0) := by
  unfold removeTypingIndicator
  by_cases hb : 0 < s.matchesBefore
  · rw [if_pos hb]
    exact ⟨rfl, hclean, fun h0 => absurd hb (by omega)⟩
  · rw [if_neg hb]
    rcases removeInEntries_clean removeInMarkup s.messages hclean with
      ⟨hnone, hzero⟩ | ⟨remaining, hsome, hcount, hmsgs, hrem⟩
    · rw [hnone]
      exact ⟨rfl, hclean, fun h0 => ⟨by rw [hzero], h0⟩⟩
    · rw [hsome]
      exact ⟨hmsgs, hrem, fun h0 => ⟨by show countTyping remaining = _; omega, h0⟩⟩

/-! ### Sending and settling -/

/-- C2: when the input is empty or holds only white space (the characters
`trim` strips), `sendMessage` leaves the whole chat state as it is: the message
list is unchanged, no typing indicator is added and no request is issued. -/
theorem sendMessage_blank_input (markedParse : JSValue → Option JSString) (now : Clock)
    (s : ChatState) (hblank : ∀ c ∈ s.input, isWhiteSpace c = true) :
    sendMessage markedParse now s = s := by
  simp [sendMessage, trim_eq_nil_of_all s.input hblank]

/-- C2, on an input of blanks, a tab and a line feed, with one request in flight. -/
theorem sendMessage_blank_input_witness :
    (∀ c ∈ "  \t\n".toList, isWhiteSpace c = true)
      ∧ sendMessage paragraphRenderer { hours := 9, minutes := 5 }
          { input := "  \t\n".toList, messages := [typingIndicator],
            pending := [chatRequest "hi".toList], issued := 1, matchesBefore := 0 }
        = { input := "  \t\n".toList, messages := [typingIndicator],
            pending := [chatRequest "hi".toList], issued := 1, matchesBefore := 0 } :=
  ⟨by decide,
    sendMessage_blank_input paragraphRenderer { hours := 9, minutes := 5 }
      { input := "  \t\n".toList, messages := [typingIndicator],
        pending := [chatRequest "hi".toList], issued := 1, matchesBefore := 0 } (by decide)⟩

theorem sendMessage_nonblank (markedParse : JSValue → Option JSString) (now : Clock)
    (s : ChatState) (hinput : trim s.input ≠ []) :
    sendMessage markedParse now s
      = { s with
          input := []
          messages := s.messages ++ [userEntry now (trim s.input)] ++ [typingIndicator]
          pending := s.pending ++ [chatRequest (trim s.input)]
          issued := s.issued + 1 } := by
  simp only [sendMessage, if_pos hinput, appendMessage_user, appendTypingIndicator]

theorem onChatRejected_eq (removeInMarkup : JSString → Option JSString)
    (markedParse : JSValue → Option JSString) (now : Clock)
    (html : JSString) (hfb : markedParse (.str fallbackText) = some html) (s : ChatState) :
    onChatRejected removeInMarkup markedParse now s
      = { removeTypingIndicator removeInMarkup s with
          messages := (removeTypingIndicator removeInMarkup s).messages ++ [botEntry now html] } := by
  simp only [onChatRejected, appendMessage_bot, hfb, Option.map_some']

/-- After any settling the list is what one or two removals left of it,
followed by one bot message. -/
theorem settleChat_messages (removeInMarkup : JSString → Option JSString)
    (markedParse : JSValue → Option JSString) (now : Clock)
    (fallbackHTML : JSString) (hfb : markedParse (.str fallbackText) = some fallbackHTML)
    (result : FetchResult) (s : ChatState) :
    ∃ html removed,
      (settleChat removeInMarkup markedParse now result s).messages
          = removed.messages ++ [botEntry now html]
        ∧ (settleChat removeInMarkup markedParse now result s).pending = s.pending
        ∧ (removed = removeTypingIndicator removeInMarkup s
            ∨ removed = removeTypingIndicator removeInMarkup
                (removeTypingIndicator removeInMarkup s)) := by
  have hrest := removeTypingIndicator_rest removeInMarkup
  cases result with
  | rejected =>
    refine ⟨fallbackHTML, removeTypingIndicator removeInMarkup s, ?_, ?_, Or.inl rfl⟩
    · simp only [settleChat, onChatRejected_eq removeInMarkup markedParse now fallbackHTML hfb]
    · simp only [settleChat, onChatRejected_eq removeInMarkup markedParse now fallbackHTML hfb]
      exact (hrest s).1
  | resolved data =>
    have hthrow : ∃ html removed,
        (onChatRejected removeInMarkup markedParse now
            (removeTypingIndicator removeInMarkup s)).messages
          = removed.messages ++ [botEntry now html]
        ∧ (onChatRejected removeInMarkup markedParse now
            (removeTypingIndicator removeInMarkup s)).pending = s.pending
        ∧ (removed = removeTypingIndicator removeInMarkup s
            ∨ removed = removeTypingIndicator removeInMarkup
                (removeTypingIndicator removeInMarkup s)) := by
      refine ⟨fallbackHTML, _, ?_, ?_, Or.inr rfl⟩
      · simp only [onChatRejected_eq removeInMarkup markedParse now fallbackHTML hfb]
      · simp only [onChatRejected_eq removeInMarkup markedParse now fallbackHTML hfb]
        exact ((hrest _).1).trans (hrest s).1
    cases data with
    | null =>
      simp only [settleChat, onChatFulfilled]
      exact hthrow
    | value response =>
      cases hr : markedParse response with
      | none =>
        simp only [settleChat, onChatFulfilled, appendMessage_bot, hr, Option.map_none']
        exact hthrow
      | some html =>
        refine ⟨html, removeTypingIndicator removeInMarkup s, ?_, ?_, Or.inl rfl⟩
        · simp only [settleChat, onChatFulfilled, appendMessage_bot, hr, Option.map_some']
        · simp only [settleChat, onChatFulfilled, appendMessage_bot, hr, Option.map_some']
          exact (hrest s).1

/-- C3: when the input is not empty after trimming and the renderer accepts
the fixed fallback text, `sendMessage` followed by the settling of its request,
with any result (a parsed body of any shape, or a failure), adds to the
messages of the list exactly the user message and one bot message, in this
order: the messages that were there stay the same elements in the same order
(only the markup inside an earlier bot message can lose an element of class
`typing-indicator`, and the messages are unchanged altogether when no markup
holds such an element), and the requests that were pending before are still
pending. -/
theorem sendMessage_then_settle (removeInMarkup : JSString → Option JSString)
    (markedParse : JSValue → Option JSString)
    (sendTime settleTime : Clock) (s : ChatState) (result : FetchResult)
    (fallbackHTML : JSString) (hinput : trim s.input ≠ [])
    (hfb : markedParse (.str fallbackText) = some fallbackHTML) :
    ∃ html earlier,
      messageEntries (completeRequest removeInMarkup markedParse settleTime s.pending.length
          result (sendMessage markedParse sendTime s)).messages
        = earlier ++ [userEntry sendTime (trim s.input), botEntry settleTime html]
      ∧ List.Forall₂ sameMessage (messageEntries s.messages) earlier
      ∧ (noTypingMarkup removeInMarkup s.messages = true →
          earlier = messageEntries s.messages)
      ∧ (completeRequest removeInMarkup markedParse settleTime s.pending.length result
          (sendMessage markedParse sendTime s)).pending = s.pending := by
  rw [sendMessage_nonblank markedParse sendTime s hinput]
  have hlt : s.pending.length < (s.pending ++ [chatRequest (trim s.input)]).length := by simp
  have herase : (s.pending ++ [chatRequest (trim s.input)]).eraseIdx s.pending.length
      = s.pending :=
    (List.eraseIdx_append_of_length_le (Nat.le_refl _) _).trans (by simp)
  simp only [completeRequest, if_pos hlt, herase]
  refine (?_ : ∀ t : ChatState,
    t.messages = s.messages ++ [userEntry sendTime (trim s.input)] ++ [typingIndicator] →
    t.pending = s.pending →
    ∃ html earlier,
      messageEntries (settleChat removeInMarkup markedParse settleTime result t).messages
        = earlier ++ [userEntry sendTime (trim s.input), botEntry settleTime html]
      ∧ List.Forall₂ sameMessage (messageEntries s.messages) earlier
      ∧ (noTypingMarkup removeInMarkup s.messages = true →
          earlier = messageEntries s.messages)
      ∧ (settleChat removeInMarkup markedParse settleTime result t).pending = s.pending)
    _ rfl rfl
  intro t ht htp
  have htm : messageEntries t.messages
      = messageEntries s.messages ++ [userEntry sendTime (trim s.input)] := by
    rw [ht, messageEntries_append_one, messageEntries_append_one, isTypingIndicator_userEntry,
      isTypingIndicator_typingIndicator]
    simp
  have htclean : noTypingMarkup removeInMarkup s.messages = true →
      noTypingMarkup removeInMarkup t.messages = true := by
    intro hclean
    rw [ht, noTypingMarkup_append_one, noTypingMarkup_append_one, hclean,
      noTypingMarkup_userEntry, noTypingMarkup_typingIndicator]
    rfl
  obtain ⟨html, removed, hmsgs, hpending, hremoved⟩ :=
    settleChat_messages removeInMarkup markedParse settleTime fallbackHTML hfb result t
  have hsame : List.Forall₂ sameMessage (messageEntries t.messages)
      (messageEntries removed.messages) := by
    rcases hremoved with rfl | rfl
    · exact removeTypingIndicator_same removeInMarkup t
    · exact forall₂_trans_of sameMessage_trans (removeTypingIndicator_same removeInMarkup t)
        (removeTypingIndicator_same removeInMarkup _)
  have hexact : noTypingMarkup removeInMarkup s.messages = true →
      messageEntries removed.messages = messageEntries t.messages := by
    intro hclean
    have h1 := removeTypingIndicator_clean removeInMarkup t (htclean hclean)
    rcases hremoved with rfl | rfl
    · exact h1.1
    · exact (removeTypingIndicator_clean removeInMarkup _ h1.2.1).1.trans h1.1
  rw [htm] at hsame
  obtain ⟨earlier, b, hsplit, hearlier, hub⟩ := forall₂_append_one_left _ _ _ hsame
  have hb := sameMessage_userEntry sendTime (trim s.input) b hub
  subst hb
  refine ⟨html, earlier, ?_, hearlier, ?_, ?_⟩
  · rw [hmsgs, messageEntries_append_one, isTypingIndicator_botEntry, hsplit]
    simp
  · intro hclean
    have h2 := hexact hclean
    rw [hsplit, htm] at h2
    exact List.append_cancel_right h2
  · rw [hpending, htp]

/-- C3, on the empty chat: the message ` hi ` is sent and the request fails. -/
theorem sendMessage_then_settle_witness :
    trim " hi ".toList ≠ []
      ∧ paragraphRenderer (.str fallbackText)
          = some ("<p>".toList ++ fallbackText ++ "</p>\n".toList)
      ∧ ∃ html earlier,
          messageEntries (completeRequest spanRemover paragraphRenderer
              { hours := 9, minutes := 6 } 0 FetchResult.rejected
              (sendMessage paragraphRenderer { hours := 9, minutes := 5 }
                { emptyChat with input := " hi ".toList })).messages
            = earlier ++ [userEntry { hours := 9, minutes := 5 } "hi".toList,
               botEntry { hours := 9, minutes := 6 } html]
          ∧ earlier = [] :=
  ⟨by decide, rfl,
    (sendMessage_then_settle spanRemover paragraphRenderer { hours := 9, minutes := 5 }
      { hours := 9, minutes := 6 } { emptyChat with input := " hi ".toList }
      FetchResult.rejected _ (by decide) rfl).imp fun _ h =>
        h.imp fun _ h' => ⟨h'.1, h'.2.2.1 rfl⟩⟩

/-! ### The typing placeholder -/

theorem chatStep_keeps_count (removeInMarkup : JSString → Option JSString)
    (markedParse : JSValue → Option JSString) (s : ChatState)
    (step : ChatStep) (hstep : stepClean removeInMarkup markedParse step = true)
    (hbefore : s.matchesBefore = 0)
    (hclean : noTypingMarkup removeInMarkup s.messages = true)
    (hcount : countTyping s.messages = s.pending.length) :
    (chatStep removeInMarkup markedParse s step).matchesBefore = 0
      ∧ noTypingMarkup removeInMarkup (chatStep removeInMarkup markedParse s step).messages
          = true
      ∧ countTyping (chatStep removeInMarkup markedParse s step).messages
          = (chatStep removeInMarkup markedParse s step).pending.length := by
  cases step with
  | setInput text => exact ⟨hbefore, hclean, hcount⟩
  | send now =>
    by_cases hinput : trim s.input = []
    · simp only [chatStep, sendMessage, hinput, ne_eq, not_true_eq_false, if_false]
      exact ⟨hbefore, hclean, hcount⟩
    · simp only [chatStep]
      rw [sendMessage_nonblank markedParse now s hinput]
      refine ⟨hbefore, ?_, ?_⟩
      · show noTypingMarkup removeInMarkup
          (s.messages ++ [userEntry now (trim s.input)] ++ [typingIndicator]) = true
        rw [noTypingMarkup_append_one, noTypingMarkup_append_one, hclean,
          noTypingMarkup_userEntry, noTypingMarkup_typingIndicator]
        rfl
      · show countTyping (s.messages ++ [userEntry now (trim s.input)] ++ [typingIndicator])
          = (s.pending ++ [chatRequest (trim s.input)]).length
        simp only [countTyping_append_one, isTypingIndicator_userEntry,
          isTypingIndicator_typingIndicator, List.length_append, List.length_singleton, hcount]
        simp
  | complete i result now =>
    by_cases hi : i < s.pending.length
    · simp only [chatStep, completeRequest, if_pos hi]
      refine (?_ : ∀ t : ChatState, t.messages = s.messages → t.matchesBefore = 0 →
        t.pending.length = s.pending.length - 1 →
        (settleChat removeInMarkup markedParse now result t).matchesBefore = 0
          ∧ noTypingMarkup removeInMarkup
              (settleChat removeInMarkup markedParse now result t).messages = true
          ∧ countTyping (settleChat removeInMarkup markedParse now result t).messages
              = (settleChat removeInMarkup markedParse now result t).pending.length)
        _ rfl hbefore (by simp [List.length_eraseIdx, hi])
      intro t htm htb htp
      have hremoved := removeTypingIndicator_clean removeInMarkup t (by rw [htm]; exact hclean)
      obtain ⟨_, hrclean, hrest⟩ := hremoved
      obtain ⟨hrcount, hrbefore⟩ := hrest htb
      have hrpending := (removeTypingIndicator_rest removeInMarkup t).1
      have hgoal : countTyping (removeTypingIndicator removeInMarkup t).messages
          = (removeTypingIndicator removeInMarkup t).pending.length := by
        rw [hrcount, hrpending, htp, htm, hcount]
      have happend : ∀ html, removeInMarkup html = none →
          ({ removeTypingIndicator removeInMarkup t with
              messages := (removeTypingIndicator removeInMarkup t).messages
                ++ [botEntry now html] } : ChatState).matchesBefore = 0
          ∧ noTypingMarkup removeInMarkup
              ((removeTypingIndicator removeInMarkup t).messages ++ [botEntry now html]) = true
          ∧ countTyping ((removeTypingIndicator removeInMarkup t).messages
              ++ [botEntry now html])
              = (removeTypingIndicator removeInMarkup t).pending.length := by
        intro html hhtml
        refine ⟨hrbefore, ?_, ?_⟩
        · rw [noTypingMarkup_append_one, hrclean, noTypingMarkup_botEntry _ _ _ hhtml]
          rfl
        · rw [countTyping_append_one, isTypingIndicator_botEntry, hgoal]
          simp
      cases result with
      | rejected =>
        simp only [stepClean] at hstep
        cases hfb : markedParse (.str fallbackText) with
        | none =>
          simp only [settleChat, onChatRejected, appendMessage_bot, hfb, Option.map_none']
          exact ⟨hrbefore, hrclean, hgoal⟩
        | some html =>
          rw [hfb] at hstep
          simp only [settleChat, onChatRejected, appendMessage_bot, hfb, Option.map_some']
          exact happend html (Option.isNone_iff_eq_none.mp hstep)
      | resolved data =>
        cases data with
        | null => simp [stepClean] at hstep
        | value response =>
          simp only [stepClean] at hstep
          cases hr : markedParse response with
          | none => simp [hr] at hstep
          | some html =>
            rw [hr] at hstep
            simp only [settleChat, onChatFulfilled, appendMessage_bot, hr, Option.map_some']
            exact happend html (Option.isNone_iff_eq_none.mp hstep)
    · simp only [chatStep, completeRequest, if_neg hi]
      exact ⟨hbefore, hclean, hcount⟩

/-- C4 (as stated, refuted): from the empty chat, two messages sent before any
request settles leave two typing indicators in the message list. -/
theorem two_sends_two_indicators_counterexample :
    ChatIdle spanRemover emptyChat
      ∧ countTyping (runChat spanRemover paragraphRenderer
          [ChatStep.setInput "a".toList, ChatStep.send { hours := 9, minutes := 5 },
           ChatStep.setInput "b".toList, ChatStep.send { hours := 9, minutes := 5 }]
          emptyChat).messages = 2
      ∧ ¬ (countTyping (runChat spanRemover paragraphRenderer
          [ChatStep.setInput "a".toList, ChatStep.send { hours := 9, minutes := 5 },
           ChatStep.setInput "b".toList, ChatStep.send { hours := 9, minutes := 5 }]
          emptyChat).messages ≤ 1) := by
  refine ⟨⟨rfl, rfl, rfl, rfl⟩, ?_, ?_⟩ <;> decide

/-- C4 (amended): in every state reached from an idle chat (nothing pending,
no placeholder, and no other element of class `typing-indicator` before or
inside the message list) by any interleaving of input edits, `sendMessage`
calls and settlings of pending requests in which no fulfilment handler throws
and no rendered reply holds an element of class `typing-indicator`, the number
of typing placeholders in the message list equals the number of pending
requests. -/
theorem typing_indicators_eq_pending (removeInMarkup : JSString → Option JSString)
    (markedParse : JSValue → Option JSString)
    (steps : List ChatStep) (s : ChatState) (hidle : ChatIdle removeInMarkup s)
    (hsteps : ∀ step ∈ steps, stepClean removeInMarkup markedParse step = true) :
    countTyping (runChat removeInMarkup markedParse steps s).messages
      = (runChat removeInMarkup markedParse steps s).pending.length := by
  obtain ⟨hpending, hbefore, hzero, hclean⟩ := hidle
  have hcount : countTyping s.messages = s.pending.length := by
    rw [hzero, hpending]
    rfl
  clear hpending hzero
  induction steps generalizing s with
  | nil => exact hcount
  | cons step steps ih =>
    simp only [runChat, List.foldl_cons]
    obtain ⟨hb, hc, hn⟩ := chatStep_keeps_count removeInMarkup markedParse s step
      (hsteps step (List.mem_cons_self _ _)) hbefore hclean hcount
    exact ih _ (fun st hst => hsteps st (List.mem_cons_of_mem _ hst)) hb hc hn

/-- C4 (amended), on two overlapping sends of which the first request then
fails: one placeholder and one pending request remain. -/
theorem typing_indicators_eq_pending_witness :
    ChatIdle spanRemover emptyChat
      ∧ (∀ step ∈ [ChatStep.setInput "a".toList, ChatStep.send { hours := 9, minutes := 5 },
            ChatStep.setInput "b".toList, ChatStep.send { hours := 9, minutes := 5 },
            ChatStep.complete 0 FetchResult.rejected { hours := 9, minutes := 6 }],
          stepClean spanRemover paragraphRenderer step = true)
      ∧ countTyping (runChat spanRemover paragraphRenderer
          [ChatStep.setInput "a".toList, ChatStep.send { hours := 9, minutes := 5 },
           ChatStep.setInput "b".toList, ChatStep.send { hours := 9, minutes := 5 },
           ChatStep.complete 0 FetchResult.rejected { hours := 9, minutes := 6 }]
          emptyChat).messages
        = (runChat spanRemover paragraphRenderer
          [ChatStep.setInput "a".toList, ChatStep.send { hours := 9, minutes := 5 },
           ChatStep.setInput "b".toList, ChatStep.send { hours := 9, minutes := 5 },
           ChatStep.complete 0 FetchResult.rejected { hours := 9, minutes := 6 }]
          emptyChat).pending.length :=
  ⟨⟨rfl, rfl, rfl, rfl⟩, by decide,
    typing_indicators_eq_pending spanRemover paragraphRenderer _ emptyChat
      ⟨rfl, rfl, rfl, rfl⟩ (by decide)⟩

/-- A settling whose fulfilment handler throws runs `removeTypingIndicator`
twice: after two overlapping sends, a first response with the body `null`
removes both placeholders although one request is still pending. -/
theorem throwing_handler_removes_both_indicators :
    stepClean spanRemover paragraphRenderer
        (ChatStep.complete 0 (FetchResult.resolved JsonBody.null) { hours := 9, minutes := 6 })
        = false
      ∧ countTyping (runChat spanRemover paragraphRenderer
          [ChatStep.setInput "a".toList, ChatStep.send { hours := 9, minutes := 5 },
           ChatStep.setInput "b".toList, ChatStep.send { hours := 9, minutes := 5 },
           ChatStep.complete 0 (FetchResult.resolved JsonBody.null) { hours := 9, minutes := 6 }]
          emptyChat).messages = 0
      ∧ (runChat spanRemover paragraphRenderer
          [ChatStep.setInput "a".toList, ChatStep.send { hours := 9, minutes := 5 },
           ChatStep.setInput "b".toList, ChatStep.send { hours := 9, minutes := 5 },
           ChatStep.complete 0 (FetchResult.resolved JsonBody.null) { hours := 9, minutes := 6 }]
          emptyChat).pending.length = 1 := by
  decide

/-- A reply whose rendering holds an element of class `typing-indicator`
is not a clean step, and it shields the placeholders sent after it: when the
reply to the next message arrives, `removeTypingIndicator` cuts the element out
of the first reply, and one placeholder stays with nothing pending. -/
theorem injected_match_shields_placeholder :
    stepClean spanRemover paragraphRenderer
        (ChatStep.complete 0 (FetchResult.resolved (JsonBody.value
          (JSValue.str "<span class=\"typing-indicator\">x</span>".toList)))
          { hours := 9, minutes := 6 })
        = false
      ∧ countTyping (runChat spanRemover paragraphRenderer
          [ChatStep.setInput "a".toList, ChatStep.send { hours := 9, minutes := 5 },
           ChatStep.complete 0 (FetchResult.resolved (JsonBody.value
             (JSValue.str "<span class=\"typing-indicator\">x</span>".toList)))
             { hours := 9, minutes := 6 },
           ChatStep.setInput "b".toList, ChatStep.send { hours := 9, minutes := 7 },
           ChatStep.complete 0 (FetchResult.resolved (JsonBody.value
             (JSValue.str "ok".toList))) { hours := 9, minutes := 8 }]
          emptyChat).messages = 1
      ∧ (runChat spanRemover paragraphRenderer
          [ChatStep.setInput "a".toList, ChatStep.send { hours := 9, minutes := 5 },
           ChatStep.complete 0 (FetchResult.resolved (JsonBody.value
             (JSValue.str "<span class=\"typing-indicator\">x</span>".toList)))
             { hours := 9, minutes := 6 },
           ChatStep.setInput "b".toList, ChatStep.send { hours := 9, minutes := 7 },
           ChatStep.complete 0 (FetchResult.resolved (JsonBody.value
             (JSValue.str "ok".toList))) { hours := 9, minutes := 8 }]
          emptyChat).pending = [] := by
  decide

/-- After a failure in a state whose markup holds no element of class
`typing-indicator` and which has no such element before the chat list, the
first placeholder is gone and one bot message holding the rendering of the text
`Sorry, I encountered an error processing your request.` is appended. -/
theorem failed_request_replaces_placeholder (removeInMarkup : JSString → Option JSString)
    (markedParse : JSValue → Option JSString) (now : Clock)
    (s : ChatState) (request : Request) (fallbackHTML : JSString)
    (hpending : s.pending = [request]) (hbefore : s.matchesBefore = 0)
    (hclean : noTypingMarkup removeInMarkup s.messages = true)
    (hfb : markedParse
        (.str "Sorry, I encountered an error processing your request.".toList)
      = some fallbackHTML) :
    messageEntries (completeRequest removeInMarkup markedParse now 0 FetchResult.rejected s).messages
        = messageEntries s.messages ++ [botEntry now fallbackHTML]
      ∧ countTyping
          (completeRequest removeInMarkup markedParse now 0 FetchResult.rejected s).messages
        = countTyping s.messages - 1
      ∧ (completeRequest removeInMarkup markedParse now 0 FetchResult.rejected s).pending = []
      ∧ (completeRequest removeInMarkup markedParse now 0 FetchResult.rejected s).issued
        = s.issued := by
  have hlt : 0 < s.pending.length := by rw [hpending]; exact Nat.zero_lt_one
  have herase : s.pending.eraseIdx 0 = [] := by rw [hpending]; rfl
  simp only [completeRequest, if_pos hlt, settleChat, herase]
  rw [onChatRejected_eq removeInMarkup markedParse now fallbackHTML hfb]
  obtain ⟨hmsgs, _, hrest⟩ := removeTypingIndicator_clean removeInMarkup
    { s with pending := [] } hclean
  obtain ⟨hcount, _⟩ := hrest hbefore
  have hfields := removeTypingIndicator_rest removeInMarkup { s with pending := [] }
  refine ⟨?_, ?_, hfields.1, hfields.2.1⟩
  · show messageEntries (_ ++ [botEntry now fallbackHTML]) = _
    rw [messageEntries_append_one, isTypingIndicator_botEntry, hmsgs]
    simp
  · show countTyping (_ ++ [botEntry now fallbackHTML]) = _
    rw [countTyping_append_one, isTypingIndicator_botEntry, hcount]
    simp

/-- C8 (code defect): the placeholder is not removed when an earlier bot
message holds an element of class `typing-indicator`.  The message `a` is
answered with `<span class="typing-indicator">x</span>`, then `b` is sent and
its request, the only one pending, fails: the rejection handler removes the
span inside the first bot message, the placeholder of `b` stays in the list
with nothing pending, and the fallback message is appended after it. -/
theorem failed_request_keeps_placeholder :
    (runChat spanRemover paragraphRenderer
        [ChatStep.setInput "a".toList, ChatStep.send { hours := 9, minutes := 5 },
         ChatStep.complete 0 (FetchResult.resolved (JsonBody.value
            (JSValue.str "<span class=\"typing-indicator\">x</span>".toList)))
            { hours := 9, minutes := 6 },
         ChatStep.setInput "b".toList, ChatStep.send { hours := 9, minutes := 7 }]
        emptyChat)
      = { input := [],
          messages :=
            [userEntry { hours := 9, minutes := 5 } "a".toList,
             botEntry { hours := 9, minutes := 6 }
               "<p><span class=\"typing-indicator\">x</span></p>\n".toList,
             userEntry { hours := 9, minutes := 7 } "b".toList,
             typingIndicator],
          pending := [chatRequest "b".toList], issued := 2, matchesBefore := 0 }
    ∧ completeRequest spanRemover paragraphRenderer { hours := 9, minutes := 8 } 0
        FetchResult.rejected
        { input := [],
          messages :=
            [userEntry { hours := 9, minutes := 5 } "a".toList,
             botEntry { hours := 9, minutes := 6 }
               "<p><span class=\"typing-indicator\">x</span></p>\n".toList,
             userEntry { hours := 9, minutes := 7 } "b".toList,
             typingIndicator],
          pending := [chatRequest "b".toList], issued := 2, matchesBefore := 0 }
      = { input := [],
          messages :=
            [userEntry { hours := 9, minutes := 5 } "a".toList,
             botEntry { hours := 9, minutes := 6 } "<p></p>\n".toList,
             userEntry { hours := 9, minutes := 7 } "b".toList,
             typingIndicator,
             botEntry { hours := 9, minutes := 8 }
               "<p>Sorry, I encountered an error processing your request.</p>\n".toList],
          pending := [], issued := 2, matchesBefore := 0 } := by
  decide

/-- C9 (as stated, refuted): a response holding an image element with an
`onerror` handler, which the renderer passes on inside a paragraph, reaches the
bot message exactly as the renderer returned it. -/
theorem unsanitized_markup_counterexample :
    (settleChat spanRemover paragraphRenderer { hours := 9, minutes := 6 }
        (FetchResult.resolved (JsonBody.value
          (JSValue.str "<img src=x onerror=alert(1)>".toList)))
        { emptyChat with messages := [typingIndicator] }).messages
      = [botEntry { hours := 9, minutes := 6 }
          "<p><img src=x onerror=alert(1)></p>\n".toList]
    ∧ paragraphRenderer (JSValue.str "<img src=x onerror=alert(1)>".toList)
      = some "<p><img src=x onerror=alert(1)></p>\n".toList
    ∧ "<img src=x onerror=alert(1)>".toList
        <:+: "<p><img src=x onerror=alert(1)></p>\n".toList := by
  decide

/-- C9 (amended): for every response text on which the renderer returns
markup, the content inserted into the bot message is exactly that markup, with
no step between the renderer and the page: the state after the response is the
state after `removeTypingIndicator` with one bot message holding the renderer's
output appended. -/
theorem bot_message_is_renderer_output (removeInMarkup : JSString → Option JSString)
    (markedParse : JSValue → Option JSString)
    (now : Clock) (text html : JSString) (s : ChatState)
    (hrender : markedParse (.str text) = some html) :
    settleChat removeInMarkup markedParse now
        (FetchResult.resolved (JsonBody.value (JSValue.str text))) s
      = { removeTypingIndicator removeInMarkup s with
          messages := (removeTypingIndicator removeInMarkup s).messages
            ++ [botEntry now html] } := by
  simp only [settleChat, onChatFulfilled, appendMessage_bot, hrender, Option.map_some']

/-- C9 (amended), on a response in Markdown. -/
theorem bot_message_is_renderer_output_witness :
    paragraphRenderer (.str "**Live** now".toList) = some "<p>**Live** now</p>\n".toList
      ∧ (settleChat spanRemover paragraphRenderer { hours := 9, minutes := 6 }
          (FetchResult.resolved (JsonBody.value (JSValue.str "**Live** now".toList)))
          { emptyChat with messages := [typingIndicator] }).messages
        = [botEntry { hours := 9, minutes := 6 } "<p>**Live** now</p>\n".toList] :=
  ⟨rfl,
    congrArg ChatState.messages
      (bot_message_is_renderer_output spanRemover paragraphRenderer { hours := 9, minutes := 6 }
        "**Live** now".toList "<p>**Live** now</p>\n".toList
        { emptyChat with messages := [typingIndicator] } rfl)⟩
/-! ## Events -/

theorem emptyStateHTML_paragraph (type : JSString) :
    ("<p>No ".toList ++ emptyStateSubject type ++ " events found.</p>".toList)
      <:+: emptyStateHTML type := by
  refine ⟨"\n                        <div class=\"no-events\">\n                            <i class=\"fas fa-calendar-times\"></i>\n                            ".toList,
    "\n                        </div>\n                    ".toList, ?_⟩
  simp [emptyStateHTML]

/-- C5 (as stated, refuted): for the filter `all`, the empty-state message
rendered on an empty array does not contain `all`. -/
theorem empty_state_all_counterexample :
    (onEventsSettled asciiToLowerCase sampleDateOps "all".toList (EventsResult.array [])
        (loadEvents "all".toList { eventsList := EventsList.cards [], requests := [] })).eventsList
      = EventsList.markup (emptyStateHTML "all".toList)
    ∧ ¬ ("all".toList <:+: emptyStateHTML "all".toList) := by
  decide

/-- C5 (amended): when the request of `loadEvents(type)` answers with an empty
array, the event list is replaced by the empty-state message; for every `type`
other than `all` the message reads `No <type> events found.`, and for `all` it
reads `No sports events found.`. -/
theorem empty_state_message (toLowerCase : JSString → JSString) (dateOps : DateOps)
    (type : JSString) (s : EventsState) :
    (onEventsSettled toLowerCase dateOps type (EventsResult.array [])
        (loadEvents type s)).eventsList = EventsList.markup (emptyStateHTML type)
      ∧ (type ≠ "all".toList →
          ("<p>No ".toList ++ type ++ " events found.</p>".toList) <:+: emptyStateHTML type)
      ∧ (type = "all".toList →
          "<p>No sports events found.</p>".toList <:+: emptyStateHTML type) := by
  refine ⟨rfl, ?_, ?_⟩
  · intro htype
    have h := emptyStateHTML_paragraph type
    rwa [emptyStateSubject, if_pos htype] at h
  · intro htype
    subst htype
    decide

/-- C5 (amended), for the filter `soccer`. -/
theorem empty_state_message_witness :
    "soccer".toList ≠ "all".toList
      ∧ "<p>No soccer events found.</p>".toList <:+: emptyStateHTML "soccer".toList :=
  ⟨by decide,
    (empty_state_message asciiToLowerCase sampleDateOps "soccer".toList
      { eventsList := EventsList.cards [], requests := [] }).2.1 (by decide)⟩

theorem eventCardHTML_status (event : Event) (formattedDate formattedTime : JSString)
    (is2025 : Bool) :
    (statusOpenTag ++ statusClass event.status ++ "\">".toList)
      <+: eventCardHTML event formattedDate formattedTime is2025 := by
  unfold eventCardHTML
  iterate 38 refine List.IsPrefix.trans ?_ (List.prefix_append _ _)
  exact List.prefix_rfl

theorem createEventCard_innerHTML (toLowerCase : JSString → JSString) (dateOps : DateOps)
    (event : Event) (card : EventCard)
    (hcard : createEventCard toLowerCase dateOps event = some card) :
    ∃ formattedDate formattedTime is2025,
      card.innerHTML = eventCardHTML event formattedDate formattedTime is2025 := by
  unfold createEventCard at hcard
  split at hcard
  · split at hcard
    · exact absurd hcard (by simp)
    · simp only [Option.some.injEq] at hcard
      subst hcard
      exact ⟨_, _, _, rfl⟩
  · exact absurd hcard (by simp)

/-- C10: `createEventCard` returns a card for every event whose sport is a
string that lower-cases to a valid class token, and on every card it returns
the status element carries the class `live` when the status is exactly `LIVE`,
`completed` when it is exactly `COMPLETED`, and `upcoming` for every other
status value. -/
theorem createEventCard_status_class (toLowerCase : JSString → JSString)
    (dateOps : DateOps) (event : Event) :
    (∀ sport, event.sport = JSValue.str sport → validToken (toLowerCase sport) = true →
        (createEventCard toLowerCase dateOps event).isSome = true)
      ∧ ∀ card, createEventCard toLowerCase dateOps event = some card →
        (event.status = JSValue.str "LIVE".toList →
            (statusOpenTag ++ "live".toList ++ "\">".toList) <+: card.innerHTML)
        ∧ (event.status = JSValue.str "COMPLETED".toList →
            (statusOpenTag ++ "completed".toList ++ "\">".toList) <+: card.innerHTML)
        ∧ (event.status ≠ JSValue.str "LIVE".toList →
            event.status ≠ JSValue.str "COMPLETED".toList →
            (statusOpenTag ++ "upcoming".toList ++ "\">".toList) <+: card.innerHTML) := by
  constructor
  · intro sport hsport hvalid
    have hec : validToken "event-card".toList = true := by decide
    have hall : ["event-card".toList, toLowerCase sport].all validToken = true := by
      simp only [List.all_cons, List.all_nil, hec, hvalid]
      rfl
    have hadd : ∃ cardClasses,
        classListAdd [] ["event-card".toList, toLowerCase sport] = some cardClasses :=
      ⟨_, if_pos hall⟩
    obtain ⟨cardClasses, hclasses⟩ := hadd
    simp only [createEventCard, hsport, hclasses]
    rfl
  · intro card hcard
    obtain ⟨formattedDate, formattedTime, is2025, hhtml⟩ :=
      createEventCard_innerHTML toLowerCase dateOps event card hcard
    have hstart := eventCardHTML_status event formattedDate formattedTime is2025
    rw [← hhtml] at hstart
    refine ⟨?_, ?_, ?_⟩
    · intro hlive
      have hclass : statusClass event.status = "live".toList := by
        rw [hlive]
        decide
      rwa [hclass] at hstart
    · intro hcompleted
      have hclass : statusClass event.status = "completed".toList := by
        rw [hcompleted]
        decide
      rwa [hclass] at hstart
    · intro hlive hcompleted
      have hclass : statusClass event.status = "upcoming".toList := by
        simp only [statusClass, if_neg hlive, if_neg hcompleted]
      rwa [hclass] at hstart

/-- C10, on an event whose status is the lower-case spelling `live`. -/
theorem createEventCard_status_class_witness :
    ∃ card,
      createEventCard asciiToLowerCase sampleDateOps (sampleEvent (JSValue.str "live".toList))
        = some card
      ∧ (statusOpenTag ++ "upcoming".toList ++ "\">".toList) <+: card.innerHTML :=
  ⟨_, rfl,
    ((createEventCard_status_class asciiToLowerCase sampleDateOps
      (sampleEvent (JSValue.str "live".toList))).2 _ rfl).2.2 (by decide) (by decide)⟩

end SportsEventTracker
